import Mathlib

/-
Verification of the DKG ceremony envelope protocol (operator-side handlers,
proof validation, and the hex JSON wire format).

Byte strings are modelled as lists of naturals (each byte < 256 where the
statement needs it).  External cryptographic primitives and helper routines
that live outside the verified sources (structural hashing, RSA parsing and
verification, the owner-signature oracle, request-ID derivation, result
building) are threaded as explicit capability parameters, mirroring the
spec's treatment of them as black boxes.
-/

abbrev Bytes := List Nat

/-- Error kinds of the protocol core (spec section 7).  NilShare models the
Go runtime fault of invoking a method through an unassigned (nil) BLS
secret-key pointer; IndexOutOfRange models the Go slice-index panic. -/
inductive Err where
  | DecodeError
  | OwnerMismatch
  | ValidatorPubkeyMismatch
  | InvalidSignature
  | OperatorNotFound
  | EmptyBatch
  | UnauthorizedBatch
  | InvalidInitMessage
  | NilShare
  | IndexOutOfRange
  | External (msg : List Nat)
deriving DecidableEq

/-- A ceremony participant: numeric ID, network address, RSA public key. -/
structure Operator where
  Addr : Bytes
  ID : Nat
  PubKey : Bytes
deriving DecidableEq

/-- Custody proof: resulting validator public key, the operator's encrypted
share, the share's own public key, owner address (20 bytes). -/
structure Proof where
  ValidatorPubKey : Bytes
  EncryptedShare : Bytes
  SharePubKey : Bytes
  Owner : Bytes
deriving DecidableEq

/-- A Proof plus an RSA signature over the Proof's structural hash. -/
structure SignedProof where
  Proof : Proof
  Signature : Bytes
deriving DecidableEq

/-- Init message: a request to start a fresh ceremony. -/
structure Init where
  ValidatorPubKey : Bytes
  Owner : Bytes
  WithdrawalCredentials : Bytes
  Fork : Bytes
  Nonce : Nat
  Amount : Nat
  Operators : List Operator
deriving DecidableEq

/-- Reshare request data (Go type Reshare). -/
structure ReshareData where
  ValidatorPubKey : Bytes
  Owner : Bytes
  WithdrawalCredentials : Bytes
  Fork : Bytes
  Nonce : Nat
  Amount : Nat
  OldOperators : List Operator
  NewOperators : List Operator
deriving DecidableEq

/-- One element of a SignedReshare batch: the reshare data plus the
sequence of predecessor proofs, index-aligned with OldOperators. -/
structure ReshareMessage where
  Reshare : ReshareData
  Proofs : List SignedProof
deriving DecidableEq

/-- A batch of reshare messages plus one owner signature over the bulk hash. -/
structure SignedReshare where
  Messages : List ReshareMessage
  Signature : Bytes
deriving DecidableEq

/-- Resign request data (Go type Resign). -/
structure ResignData where
  ValidatorPubKey : Bytes
  Owner : Bytes
  WithdrawalCredentials : Bytes
  Fork : Bytes
  Nonce : Nat
  Amount : Nat
deriving DecidableEq

/-- One element of a SignedResign batch: resign data, the current operator
sequence, and the proofs index-aligned with that sequence. -/
structure ResignMessage where
  Resign : ResignData
  Operators : List Operator
  Proofs : List SignedProof
deriving DecidableEq

/-- A batch of resign messages plus one owner signature over the bulk hash. -/
structure SignedResign where
  Messages : List ResignMessage
  Signature : Bytes
deriving DecidableEq

/-- A single operator's output for one ceremony invocation. -/
structure Result where
  OperatorID : Nat
  RequestID : Bytes
  DepositPartialSignature : Bytes
  OwnerNoncePartialSignature : Bytes
  SignedProof : SignedProof
deriving DecidableEq

/-- Black-box cryptographic primitives used by proof verification: the
structural (SSZ merkleized) hash of a Proof, RSA public-key parsing
(returning none when the bytes cannot be parsed), and RSA signature
verification. -/
structure Crypto where
  hashTreeRoot : Proof → Bytes
  parseRSAPublicKey : Bytes → Option Bytes
  verifyRSA : Bytes → Bytes → Bytes → Bool

/-- Capability bundle for the ceremony handlers: every helper the handlers
call that lives outside the verified sources is threaded here explicitly
(structural init validation, deposit-data root derivation, BLS and RSA
primitives, bulk hashing, the owner-signature oracle, request-ID
derivation, and result building). -/
structure Env where
  crypto : Crypto
  validateInitMessage : Init → Except Err Unit
  depositDataRootForFork : Bytes → Bytes → Bytes → Nat → Except Err Bytes
  blsSignByte : Bytes → Bytes → Bytes
  serializeToHexStr : Bytes → Bytes
  getPublicKeyBytes : Bytes → Bytes
  encrypt : Bytes → Bytes → Except Err Bytes
  marshalSSZProof : Proof → Except Err Bytes
  signRSA : Bytes → Bytes → Except Err Bytes
  partialNonceRoot : Bytes → Nat → Bytes
  getBulkReshareHash : List ReshareMessage → Except Err Bytes
  getBulkResignHash : List ResignMessage → Except Err Bytes
  verifySignedMessageByOwner : Bytes → Bytes → Bytes → Except Err Unit
  getReqIDFromReshareMsg : ReshareMessage → Except Err Bytes
  getReqIDFromResignMsg : ResignMessage → Except Err Bytes
  buildResult : Nat → Bytes → Option Bytes → Bytes → Bytes → Bytes → Bytes → Bytes → Nat → Nat → Except Err Result

/-- VerifyCeremonyProof: recompute the structural hash of the embedded
Proof, parse the RSA public key, and verify the signature. -/
def VerifyCeremonyProof (c : Crypto) (pkBytes : Bytes) (proof : SignedProof) : Except Err Unit :=
  let hash := c.hashTreeRoot proof.Proof
  match c.parseRSAPublicKey pkBytes with
  | none => .error .DecodeError
  | some pk =>
    if c.verifyRSA pk hash proof.Signature then .ok () else .error .InvalidSignature

/-- ValidateCeremonyProof: owner check, then validator-pubkey check, then
delegation to VerifyCeremonyProof with the operator's public key. -/
def ValidateCeremonyProof (c : Crypto) (ownerAddress : Bytes) (validatorPK : Bytes)
    (operator : Operator) (signedProof : SignedProof) : Except Err Unit :=
  if ownerAddress ≠ signedProof.Proof.Owner then .error .OwnerMismatch
  else if validatorPK ≠ signedProof.Proof.ValidatorPubKey then .error .ValidatorPubkeyMismatch
  else VerifyCeremonyProof c operator.PubKey signedProof

/-- Modelled from the spec: operator position lookup is a linear scan over
the operator sequence, returning a sentinel (none) when the ID is absent
rather than erroring.  (The function's code is in the repository but not
among the verified sources.) -/
def FindOperatorPosition : List Operator → Nat → Option Nat
  | [], _ => none
  | o :: rest, id =>
    if o.ID = id then some 0
    else (FindOperatorPosition rest id).map (· + 1)

/-- Modelled from the spec: validate_reshare delegates to
validate_ceremony_proof using the message's owner and validator public key
as expected values, against the invoking operator and the proof aligned
with it.  (The function's code is in the repository but not among the
verified sources.) -/
def ValidateReshareMessage (c : Crypto) (reshare : ReshareData) (op : Operator)
    (pf : SignedProof) : Except Err Unit :=
  ValidateCeremonyProof c reshare.Owner reshare.ValidatorPubKey op pf

/-- Modelled from the spec: validate_resign has the same shape as
validate_reshare, delegating to validate_ceremony_proof with the message's
owner and validator public key. -/
def ValidateResignMessage (c : Crypto) (resign : ResignData) (op : Operator)
    (pf : SignedProof) : Except Err Unit :=
  ValidateCeremonyProof c resign.Owner resign.ValidatorPubKey op pf

/-- Modelled from the spec: the threshold-signing black box
sign(share, message_bytes); invoking it through an unassigned (nil) share
pointer is a runtime fault, modelled as Err.NilShare. -/
def signByteOpt (env : Env) (share : Option Bytes) (msg : Bytes) : Except Err Bytes :=
  match share with
  | none => .error .NilShare
  | some s => .ok (env.blsSignByte s msg)

/-- Modelled from the spec: hex serialization of a share via the
threshold-signing black box; a nil share is a runtime fault. -/
def serializeToHexOpt (env : Env) (share : Option Bytes) : Except Err Bytes :=
  match share with
  | none => .error .NilShare
  | some s => .ok (env.serializeToHexStr s)

/-- Modelled from the spec: derive_public of the threshold-signing black
box; a nil share is a runtime fault. -/
def getPublicKeyOpt (env : Env) (share : Option Bytes) : Except Err Bytes :=
  match share with
  | none => .error .NilShare
  | some s => .ok (env.getPublicKeyBytes s)

/-- Operator-side Init handler, translated statement by statement from the
source: validate the message; declare (without assigning) the BLS share and
validator public key; derive the deposit-data root; sign it with the share;
encrypt the serialized share; build and RSA-sign the proof; return the
composed Result. -/
def Operator.Init (env : Env) (op : Operator) (init : Init) (requestID : Bytes)
    (sk : Bytes) : Except Err Result :=
  match env.validateInitMessage init with
  | .error e => .error e
  | .ok _ =>
    let share : Option Bytes := none
    let validatorPK : Bytes := []
    match env.depositDataRootForFork init.Fork validatorPK init.WithdrawalCredentials init.Amount with
    | .error e => .error e
    | .ok depositDataRoot =>
      match signByteOpt env share depositDataRoot with
      | .error e => .error e
      | .ok depositDataSig =>
        match serializeToHexOpt env share with
        | .error e => .error e
        | .ok serialized =>
          match env.encrypt sk serialized with
          | .error e => .error e
          | .ok encryptedShare =>
            match getPublicKeyOpt env share with
            | .error e => .error e
            | .ok sharePubKey =>
              let proof : Proof := ⟨validatorPK, encryptedShare, sharePubKey, init.Owner⟩
              match env.marshalSSZProof proof with
              | .error e => .error e
              | .ok byts =>
                match env.signRSA sk byts with
                | .error e => .error e
                | .ok proofSig =>
                  match signByteOpt env share (env.partialNonceRoot init.Owner init.Nonce) with
                  | .error e => .error e
                  | .ok ownerNonceSig =>
                    .ok ⟨op.ID, requestID, depositDataSig, ownerNonceSig, ⟨proof, proofSig⟩⟩

/-- Messages[0].Reshare.Owner; the handler reads it only after the
emptiness check has passed. -/
def firstReshareOwner : List ReshareMessage → Bytes
  | [] => []
  | m :: _ => m.Reshare.Owner

/-- Messages[0].Resign.Owner; the handler reads it only after the
emptiness check has passed. -/
def firstResignOwner : List ResignMessage → Bytes
  | [] => []
  | m :: _ => m.Resign.Owner

/-- Tail of the per-message reshare loop body after the old-operator
validation block: declare (without assigning) the share, derive the
request ID, build the Result. -/
def reshareResultPart (env : Env) (op : Operator) (sk : Bytes)
    (reshareMsg : ReshareMessage) : Except Err Result :=
  let share : Option Bytes := none
  match env.getReqIDFromReshareMsg reshareMsg with
  | .error e => .error e
  | .ok reqID =>
    env.buildResult op.ID reqID share sk reshareMsg.Reshare.ValidatorPubKey
      reshareMsg.Reshare.Owner reshareMsg.Reshare.WithdrawalCredentials
      reshareMsg.Reshare.Fork reshareMsg.Reshare.Nonce reshareMsg.Reshare.Amount

/-- Body of the reshare loop for one message: if the invoking operator is
found in the old-operator sequence, access the aligned proof (a too-short
proof sequence is the Go slice-index panic) and validate it; then proceed
to result building. -/
def reshareMsgStep (env : Env) (op : Operator) (sk : Bytes)
    (reshareMsg : ReshareMessage) : Except Err Result :=
  match FindOperatorPosition reshareMsg.Reshare.OldOperators op.ID with
  | some position =>
    match reshareMsg.Proofs[position]? with
    | none => .error .IndexOutOfRange
    | some pf =>
      match ValidateReshareMessage env.crypto reshareMsg.Reshare op pf with
      | .error e => .error e
      | .ok _ => reshareResultPart env op sk reshareMsg
  | none => reshareResultPart env op sk reshareMsg

/-- The reshare loop: process messages in order, abort on first error. -/
def processReshareMessages (env : Env) (op : Operator) (sk : Bytes) :
    List ReshareMessage → Except Err (List Result)
  | [] => .ok []
  | m :: rest =>
    match reshareMsgStep env op sk m with
    | .error e => .error e
    | .ok r =>
      match processReshareMessages env op sk rest with
      | .error e => .error e
      | .ok rs => .ok (r :: rs)

/-- Operator-side Reshare handler: reject an empty batch, compute the bulk
hash, verify the owner signature against the first message's owner, then
run the per-message loop. -/
def Operator.Reshare (env : Env) (op : Operator) (signedReshare : SignedReshare)
    (sk : Bytes) : Except Err (List Result) :=
  if signedReshare.Messages.length = 0 then .error .EmptyBatch
  else
    match env.getBulkReshareHash signedReshare.Messages with
    | .error e => .error e
    | .ok msgHash =>
      match env.verifySignedMessageByOwner (firstReshareOwner signedReshare.Messages)
          msgHash signedReshare.Signature with
      | .error e => .error e
      | .ok _ => processReshareMessages env op sk signedReshare.Messages

/-- Tail of the per-message resign loop body after the membership and
validation checks: derive the request ID and build the Result with the
caller-supplied share. -/
def resignResultPart (env : Env) (op : Operator) (share : Option Bytes) (sk : Bytes)
    (resignMsg : ResignMessage) : Except Err Result :=
  match env.getReqIDFromResignMsg resignMsg with
  | .error e => .error e
  | .ok reqID =>
    env.buildResult op.ID reqID share sk resignMsg.Resign.ValidatorPubKey
      resignMsg.Resign.Owner resignMsg.Resign.WithdrawalCredentials
      resignMsg.Resign.Fork resignMsg.Resign.Nonce resignMsg.Resign.Amount

/-- Body of the resign loop for one message: membership of the invoking
operator in the operator sequence is mandatory; then the aligned proof is
accessed (a too-short proof sequence is the Go slice-index panic) and
validated; then result building runs. -/
def resignMsgStep (env : Env) (op : Operator) (share : Option Bytes) (sk : Bytes)
    (resignMsg : ResignMessage) : Except Err Result :=
  match FindOperatorPosition resignMsg.Operators op.ID with
  | none => .error .OperatorNotFound
  | some position =>
    match resignMsg.Proofs[position]? with
    | none => .error .IndexOutOfRange
    | some pf =>
      match ValidateResignMessage env.crypto resignMsg.Resign op pf with
      | .error e => .error e
      | .ok _ => resignResultPart env op share sk resignMsg

/-- The resign loop: process messages in order, abort on first error. -/
def processResignMessages (env : Env) (op : Operator) (share : Option Bytes) (sk : Bytes) :
    List ResignMessage → Except Err (List Result)
  | [] => .ok []
  | m :: rest =>
    match resignMsgStep env op share sk m with
    | .error e => .error e
    | .ok r =>
      match processResignMessages env op share sk rest with
      | .error e => .error e
      | .ok rs => .ok (r :: rs)

/-- Operator-side Resign handler: reject an empty batch, compute the bulk
hash, verify the owner signature against the first message's owner, then
run the per-message loop with the caller-supplied share. -/
def Operator.Resign (env : Env) (op : Operator) (signedResign : SignedResign)
    (share : Option Bytes) (sk : Bytes) : Except Err (List Result) :=
  if signedResign.Messages.length = 0 then .error .EmptyBatch
  else
    match env.getBulkResignHash signedResign.Messages with
    | .error e => .error e
    | .ok msgHash =>
      match env.verifySignedMessageByOwner (firstResignOwner signedResign.Messages)
          msgHash signedResign.Signature with
      | .error e => .error e
      | .ok _ => processResignMessages env op share sk signedResign.Messages

/-- Lowercase hex digit character for a value below 16. -/
def hexDigitChar (n : Nat) : Char :=
  if n < 10 then Char.ofNat (48 + n) else Char.ofNat (87 + n)

/-- Two lowercase hex characters encoding one byte. -/
def hexEncodeByte (b : Nat) : List Char :=
  [hexDigitChar (b / 16), hexDigitChar (b % 16)]

/-- Lowercase hex encoding of a byte string (hex.EncodeToString). -/
def hexEncode (bs : Bytes) : List Char :=
  (bs.map hexEncodeByte).flatten

/-- Value of one hex digit character; accepts both cases, none otherwise. -/
def hexDigitVal (c : Char) : Option Nat :=
  if 48 ≤ c.toNat ∧ c.toNat ≤ 57 then some (c.toNat - 48)
  else if 97 ≤ c.toNat ∧ c.toNat ≤ 102 then some (c.toNat - 87)
  else if 65 ≤ c.toNat ∧ c.toNat ≤ 70 then some (c.toNat - 55)
  else none

/-- Hex decoding of a character string (hex.DecodeString): fails on odd
length or any non-hex character. -/
def hexDecode : List Char → Option Bytes
  | [] => some []
  | [_] => none
  | c1 :: c2 :: rest =>
    match hexDigitVal c1, hexDigitVal c2, hexDecode rest with
    | some h, some l, some tail => some ((16 * h + l) :: tail)
    | _, _, _ => none

/-- Wire object for Proof: all four byte fields rendered as hex strings
(field names follow the JSON tags). -/
structure proofJSON where
  validator : List Char
  encrypted_share : List Char
  share_pub : List Char
  owner : List Char
deriving DecidableEq

/-- Proof.MarshalJSON: hex-encode every field. -/
def Proof.MarshalJSON (p : Proof) : proofJSON :=
  ⟨hexEncode p.ValidatorPubKey, hexEncode p.EncryptedShare,
   hexEncode p.SharePubKey, hexEncode p.Owner⟩

/-- Proof.UnmarshalJSON: hex-decode every field in source order; any failed
decode fails the whole object; a decoded owner whose length is not exactly
20 bytes is rejected. -/
def Proof.UnmarshalJSON (j : proofJSON) : Except Err Proof :=
  match hexDecode j.validator with
  | none => .error .DecodeError
  | some v =>
    match hexDecode j.encrypted_share with
    | none => .error .DecodeError
    | some es =>
      match hexDecode j.share_pub with
      | none => .error .DecodeError
      | some sp =>
        match hexDecode j.owner with
        | none => .error .DecodeError
        | some ow =>
          if ow.length ≠ 20 then .error .DecodeError
          else .ok ⟨v, es, sp, ow⟩

/-- Wire object for SignedProof: nested proof object plus hex signature. -/
structure signedProofJSON where
  proof : proofJSON
  signature : List Char
deriving DecidableEq

/-- SignedProof.MarshalJSON: nested Proof marshalling plus hex signature. -/
def SignedProof.MarshalJSON (sp : SignedProof) : signedProofJSON :=
  ⟨Proof.MarshalJSON sp.Proof, hexEncode sp.Signature⟩

/-- SignedProof.UnmarshalJSON: the nested proof object is decoded by
Proof.UnmarshalJSON (its failure fails the whole object), then the
signature is hex-decoded. -/
def SignedProof.UnmarshalJSON (j : signedProofJSON) : Except Err SignedProof :=
  match Proof.UnmarshalJSON j.proof with
  | .error e => .error e
  | .ok p =>
    match hexDecode j.signature with
    | none => .error .DecodeError
    | some sig => .ok ⟨p, sig⟩

/-- Wire object for Operator: raw (non-hex) address and public-key strings
plus the numeric ID (field names follow the JSON tags; Go strings are byte
sequences, modelled as Bytes). -/
structure operatorJSON where
  ip : Bytes
  id : Nat
  public_key : Bytes
deriving DecidableEq

/-- strings.TrimRight(addr, slash): drop every trailing byte 47. -/
def trimTrailingSlashes (bs : Bytes) : Bytes :=
  (bs.reverse.dropWhile (fun b => b == 47)).reverse

/-- Operator.MarshalJSON: raw string fields, no hex. -/
def Operator.MarshalJSON (op : Operator) : operatorJSON :=
  ⟨op.Addr, op.ID, op.PubKey⟩

/-- Operator.UnmarshalJSON: trailing slash characters of the address are
stripped; ID and public key are taken verbatim; never fails. -/
def Operator.UnmarshalJSON (j : operatorJSON) : Operator :=
  ⟨trimTrailingSlashes j.ip, j.id, j.public_key⟩

/-- Every entry of the byte string is an actual byte. -/
def bytesValid (bs : Bytes) : Prop := ∀ b ∈ bs, b < 256

instance (bs : Bytes) : Decidable (bytesValid bs) := by
  unfold bytesValid; infer_instance

/-- A Proof value representable on the wire: all fields are byte strings
and the owner is exactly 20 bytes. -/
def ProofValid (p : Proof) : Prop :=
  bytesValid p.ValidatorPubKey ∧ bytesValid p.EncryptedShare ∧
  bytesValid p.SharePubKey ∧ bytesValid p.Owner ∧ p.Owner.length = 20

instance (p : Proof) : Decidable (ProofValid p) := by
  unfold ProofValid; infer_instance

/-- A SignedProof value representable on the wire. -/
def SignedProofValid (sp : SignedProof) : Prop :=
  ProofValid sp.Proof ∧ bytesValid sp.Signature

instance (sp : SignedProof) : Decidable (SignedProofValid sp) := by
  unfold SignedProofValid; infer_instance

lemma findOperatorPosition_eq_none_of_absent (ops : List Operator) (id : Nat)
    (h : ∀ o ∈ ops, o.ID ≠ id) : FindOperatorPosition ops id = none := by
  induction ops with
  | nil => rfl
  | cons o rest ih =>
    have ho : o.ID ≠ id := h o (List.mem_cons_self o rest)
    have hrest := ih (fun x hx => h x (List.mem_cons_of_mem _ hx))
    simp [FindOperatorPosition, ho, hrest]

lemma processReshareMessages_first_error (env : Env) (op : Operator) (sk : Bytes)
    (pre : List ReshareMessage) (m : ReshareMessage) (post : List ReshareMessage)
    (e : Err) (hpre : ∀ x ∈ pre, ∃ r, reshareMsgStep env op sk x = .ok r)
    (hm : reshareMsgStep env op sk m = .error e) :
    processReshareMessages env op sk (pre ++ m :: post) = .error e := by
  induction pre with
  | nil => simp [processReshareMessages, hm]
  | cons x pre' ih =>
    obtain ⟨r, hr⟩ := hpre x (List.mem_cons_self x pre')
    have ih' := ih (fun y hy => hpre y (List.mem_cons_of_mem _ hy))
    simp [processReshareMessages, hr, ih']

lemma processResignMessages_first_error (env : Env) (op : Operator)
    (share : Option Bytes) (sk : Bytes)
    (pre : List ResignMessage) (m : ResignMessage) (post : List ResignMessage)
    (e : Err) (hpre : ∀ x ∈ pre, ∃ r, resignMsgStep env op share sk x = .ok r)
    (hm : resignMsgStep env op share sk m = .error e) :
    processResignMessages env op share sk (pre ++ m :: post) = .error e := by
  induction pre with
  | nil => simp [processResignMessages, hm]
  | cons x pre' ih =>
    obtain ⟨r, hr⟩ := hpre x (List.mem_cons_self x pre')
    have ih' := ih (fun y hy => hpre y (List.mem_cons_of_mem _ hy))
    simp [processResignMessages, hr, ih']

/-- C1: ValidateCeremonyProof succeeds iff the proof's owner equals the
expected owner, its validator public key equals the expected one, and the
RSA signature over the proof's structural hash verifies against the
operator's public key (assuming that key parses); the checks run in that
order, and each single mismatch yields its specific error: OwnerMismatch,
ValidatorPubkeyMismatch, or InvalidSignature. -/
theorem validateCeremonyProof_binding (c : Crypto) (ownerAddress validatorPK : Bytes)
    (operator : Operator) (signedProof : SignedProof) (pk : Bytes)
    (hpk : c.parseRSAPublicKey operator.PubKey = some pk) :
    (ValidateCeremonyProof c ownerAddress validatorPK operator signedProof = .ok () ↔
      (signedProof.Proof.Owner = ownerAddress ∧
       signedProof.Proof.ValidatorPubKey = validatorPK ∧
       c.verifyRSA pk (c.hashTreeRoot signedProof.Proof) signedProof.Signature = true))
    ∧ (signedProof.Proof.Owner ≠ ownerAddress →
        ValidateCeremonyProof c ownerAddress validatorPK operator signedProof =
          .error .OwnerMismatch)
    ∧ (signedProof.Proof.Owner = ownerAddress →
       signedProof.Proof.ValidatorPubKey ≠ validatorPK →
        ValidateCeremonyProof c ownerAddress validatorPK operator signedProof =
          .error .ValidatorPubkeyMismatch)
    ∧ (signedProof.Proof.Owner = ownerAddress →
       signedProof.Proof.ValidatorPubKey = validatorPK →
       c.verifyRSA pk (c.hashTreeRoot signedProof.Proof) signedProof.Signature = false →
        ValidateCeremonyProof c ownerAddress validatorPK operator signedProof =
          .error .InvalidSignature) := by
  unfold ValidateCeremonyProof VerifyCeremonyProof
  rw [hpk]
  by_cases h1 : ownerAddress = signedProof.Proof.Owner
  · by_cases h2 : validatorPK = signedProof.Proof.ValidatorPubKey
    · cases hv : c.verifyRSA pk (c.hashTreeRoot signedProof.Proof) signedProof.Signature <;>
        simp [h1, h2, hv]
    · simp [h1, h2, Ne.symm h2]
  · simp [h1, Ne.symm h1]

/-- Witness for C1 at concrete inputs: with a crypto capability that parses
keys verbatim and accepts every signature, a proof whose owner and
validator key match the expected values validates successfully. -/
theorem validateCeremonyProof_binding_witness :
    ValidateCeremonyProof ⟨fun _ => [0], fun pk => some pk, fun _ _ _ => true⟩
      [1] [2] ⟨[3], 5, [7]⟩ ⟨⟨[2], [8], [9], [1]⟩, [6]⟩ = .ok () :=
  (validateCeremonyProof_binding ⟨fun _ => [0], fun pk => some pk, fun _ _ _ => true⟩
    [1] [2] ⟨[3], 5, [7]⟩ ⟨⟨[2], [8], [9], [1]⟩, [6]⟩ [7] rfl).1.mpr
    (by exact ⟨rfl, rfl, rfl⟩)

/-- Concrete crypto capability for witnesses: hash is constant, keys parse
verbatim, every signature verifies. -/
def cOK : Crypto := ⟨fun _ => [0], fun pk => some pk, fun _ _ _ => true⟩

/-- Concrete capability environment for witnesses: every oracle succeeds
with small fixed values. -/
def envOK : Env :=
  ⟨cOK,
   fun _ => .ok (),
   fun _ _ _ _ => .ok [0],
   fun _ _ => [1],
   fun s => s,
   fun s => s,
   fun _ s => .ok s,
   fun _ => .ok [],
   fun _ _ => .ok [4],
   fun _ _ => [5],
   fun _ => .ok [2],
   fun _ => .ok [2],
   fun _ _ _ => .ok (),
   fun _ => .ok [3],
   fun _ => .ok [3],
   fun id reqID _ _ _ _ _ _ _ _ => .ok ⟨id, reqID, [], [], ⟨⟨[], [], [], []⟩, []⟩⟩⟩

def opW : Operator := ⟨[9], 7, [7]⟩

def rdSkip : ReshareData := ⟨[], [1], [], [], 0, 0, [], []⟩

def mW1 : ReshareMessage := ⟨rdSkip, []⟩

def rdOld : ReshareData := ⟨[], [1], [], [], 0, 0, [opW], []⟩

def pfBad : SignedProof := ⟨⟨[], [], [], [99]⟩, []⟩

def mW2 : ReshareMessage := ⟨rdOld, [pfBad]⟩

def mW3 : ReshareMessage := ⟨rdSkip, []⟩

def srW : SignedReshare := ⟨[mW1, mW2, mW3], [8]⟩

def resW : Result := ⟨7, [3], [], [], ⟨⟨[], [], [], []⟩, []⟩⟩

lemma reshare_call_first_error (env : Env) (op : Operator) (sk : Bytes)
    (sr : SignedReshare) (pre : List ReshareMessage) (m : ReshareMessage)
    (post : List ReshareMessage) (e : Err) (msgHash : Bytes)
    (hmsgs : sr.Messages = pre ++ m :: post)
    (hbulk : env.getBulkReshareHash sr.Messages = .ok msgHash)
    (hverify : env.verifySignedMessageByOwner (firstReshareOwner sr.Messages)
        msgHash sr.Signature = .ok ())
    (hpre : ∀ x ∈ pre, ∃ r, reshareMsgStep env op sk x = .ok r)
    (hm : reshareMsgStep env op sk m = .error e) :
    Operator.Reshare env op sr sk = .error e := by
  have hne : sr.Messages.length ≠ 0 := by rw [hmsgs]; simp
  unfold Operator.Reshare
  rw [if_neg hne]
  simp only [hbulk]
  simp only [hverify]
  rw [hmsgs]
  exact processReshareMessages_first_error env op sk pre m post e hpre hm

lemma resign_call_first_error (env : Env) (op : Operator) (share : Option Bytes)
    (sk : Bytes) (sr : SignedResign) (pre : List ResignMessage) (m : ResignMessage)
    (post : List ResignMessage) (e : Err) (msgHash : Bytes)
    (hmsgs : sr.Messages = pre ++ m :: post)
    (hbulk : env.getBulkResignHash sr.Messages = .ok msgHash)
    (hverify : env.verifySignedMessageByOwner (firstResignOwner sr.Messages)
        msgHash sr.Signature = .ok ())
    (hpre : ∀ x ∈ pre, ∃ r, resignMsgStep env op share sk x = .ok r)
    (hm : resignMsgStep env op share sk m = .error e) :
    Operator.Resign env op sr share sk = .error e := by
  have hne : sr.Messages.length ≠ 0 := by rw [hmsgs]; simp
  unfold Operator.Resign
  rw [if_neg hne]
  simp only [hbulk]
  simp only [hverify]
  rw [hmsgs]
  exact processResignMessages_first_error env op share sk pre m post e hpre hm

/-- C2: Reshare and Resign process their batch strictly in order and abort
the whole call on the first per-message error, returning exactly that
error and no Results: whenever the batch splits as pre ++ m :: post with
every message of pre succeeding and m failing with e, the handler call
returns error e. -/
theorem batch_fail_fast_first_error :
    (∀ (env : Env) (op : Operator) (sk : Bytes) (sr : SignedReshare)
       (pre : List ReshareMessage) (m : ReshareMessage) (post : List ReshareMessage)
       (e : Err) (msgHash : Bytes),
       sr.Messages = pre ++ m :: post →
       env.getBulkReshareHash sr.Messages = .ok msgHash →
       env.verifySignedMessageByOwner (firstReshareOwner sr.Messages) msgHash
         sr.Signature = .ok () →
       (∀ x ∈ pre, ∃ r, reshareMsgStep env op sk x = .ok r) →
       reshareMsgStep env op sk m = .error e →
       Operator.Reshare env op sr sk = .error e)
    ∧ (∀ (env : Env) (op : Operator) (share : Option Bytes) (sk : Bytes)
       (sr : SignedResign)
       (pre : List ResignMessage) (m : ResignMessage) (post : List ResignMessage)
       (e : Err) (msgHash : Bytes),
       sr.Messages = pre ++ m :: post →
       env.getBulkResignHash sr.Messages = .ok msgHash →
       env.verifySignedMessageByOwner (firstResignOwner sr.Messages) msgHash
         sr.Signature = .ok () →
       (∀ x ∈ pre, ∃ r, resignMsgStep env op share sk x = .ok r) →
       resignMsgStep env op share sk m = .error e →
       Operator.Resign env op sr share sk = .error e) := by
  constructor
  · intro env op sk sr pre m post e msgHash hmsgs hbulk hverify hpre hm
    exact reshare_call_first_error env op sk sr pre m post e msgHash
      hmsgs hbulk hverify hpre hm
  · intro env op share sk sr pre m post e msgHash hmsgs hbulk hverify hpre hm
    exact resign_call_first_error env op share sk sr pre m post e msgHash
      hmsgs hbulk hverify hpre hm

/-- Witness for C2: a concrete batch of three reshare messages whose second
message fails proof validation with OwnerMismatch makes the whole Reshare
call return exactly that error (and, by the return type, zero Results). -/
theorem batch_fail_fast_first_error_witness :
    Operator.Reshare envOK opW srW [4] = .error .OwnerMismatch :=
  batch_fail_fast_first_error.1 envOK opW [4] srW [mW1] mW2 [mW3]
    .OwnerMismatch [2] rfl rfl rfl
    (by
      intro x hx
      rw [List.mem_singleton] at hx
      subst hx
      exact ⟨resW, rfl⟩)
    rfl

/-- C8: a Reshare or Resign batch with zero messages is rejected with the
empty-batch error for every capability environment, i.e. before any bulk
hashing or owner-signature verification can be consulted. -/
theorem empty_batch_rejected (env : Env) (op : Operator) (share : Option Bytes)
    (sk : Bytes) (sig : Bytes) :
    Operator.Reshare env op ⟨[], sig⟩ sk = .error .EmptyBatch ∧
    Operator.Resign env op ⟨[], sig⟩ share sk = .error .EmptyBatch := by
  constructor <;> rfl

/-- C7: a resign message whose operator sequence does not contain the
invoking operator's ID makes the whole Resign call fail with
OperatorNotFound once processing reaches that message; the statement is
quantified over every capability environment and every attached proof
sequence, so the failure happens regardless of proof validity and before
any proof check for that message. -/
theorem resign_membership_mandatory :
    ∀ (env : Env) (op : Operator) (share : Option Bytes) (sk : Bytes)
      (sr : SignedResign) (pre : List ResignMessage) (m : ResignMessage)
      (post : List ResignMessage) (msgHash : Bytes),
      sr.Messages = pre ++ m :: post →
      env.getBulkResignHash sr.Messages = .ok msgHash →
      env.verifySignedMessageByOwner (firstResignOwner sr.Messages) msgHash
        sr.Signature = .ok () →
      (∀ x ∈ pre, ∃ r, resignMsgStep env op share sk x = .ok r) →
      (∀ o ∈ m.Operators, o.ID ≠ op.ID) →
      Operator.Resign env op sr share sk = .error .OperatorNotFound := by
  intro env op share sk sr pre m post msgHash hmsgs hbulk hverify hpre habs
  have hfind := findOperatorPosition_eq_none_of_absent m.Operators op.ID habs
  have hm : resignMsgStep env op share sk m = .error .OperatorNotFound := by
    simp only [resignMsgStep, hfind]
  exact resign_call_first_error env op share sk sr pre m post .OperatorNotFound
    msgHash hmsgs hbulk hverify hpre hm

def rsdA : ResignData := ⟨[], [1], [], [], 0, 0⟩

def pfGoodA : SignedProof := ⟨⟨[], [], [], [1]⟩, []⟩

def mGoodA : ResignMessage := ⟨rsdA, [opW], [pfGoodA]⟩

def opOther : Operator := ⟨[9], 8, [7]⟩

def mAbsent : ResignMessage := ⟨rsdA, [opOther], [pfGoodA]⟩

def srAbsent : SignedResign := ⟨[mGoodA, mAbsent], [8]⟩

/-- Witness for C7: a concrete two-message batch whose second message lists
only a different operator ID makes Resign return OperatorNotFound even
though the attached proofs are valid. -/
theorem resign_membership_mandatory_witness :
    Operator.Resign envOK opW srAbsent (some [6]) [4] = .error .OperatorNotFound :=
  resign_membership_mandatory envOK opW (some [6]) [4] srAbsent [mGoodA] mAbsent []
    [2] rfl rfl rfl
    (by
      intro x hx
      rw [List.mem_singleton] at hx
      subst hx
      exact ⟨resW, rfl⟩)
    (by decide)

/-- C9: in the reshare loop body the predecessor-proof validation runs iff
the invoking operator's ID appears in the message's old-operator sequence:
when it is absent the step is exactly the result-building tail (the
validation is skipped without error), and when it is present at position p
with an aligned proof the step is that validation followed by the same
result-building tail. -/
theorem reshare_validation_gated_on_old_set (env : Env) (op : Operator) (sk : Bytes)
    (m : ReshareMessage) :
    (FindOperatorPosition m.Reshare.OldOperators op.ID = none →
       reshareMsgStep env op sk m = reshareResultPart env op sk m)
    ∧ (∀ (p : Nat) (pf : SignedProof),
        FindOperatorPosition m.Reshare.OldOperators op.ID = some p →
        m.Proofs[p]? = some pf →
        reshareMsgStep env op sk m =
          (match ValidateReshareMessage env.crypto m.Reshare op pf with
           | .error e => .error e
           | .ok _ => reshareResultPart env op sk m)) := by
  constructor
  · intro hfind
    simp only [reshareMsgStep, hfind]
  · intro p pf hfind hpf
    simp only [reshareMsgStep, hfind, hpf]

/-- Witness for C9 at concrete messages: with the operator absent from the
old set the step equals the result tail, and with it present the step is
the validation composed with the result tail. -/
theorem reshare_validation_gated_on_old_set_witness :
    reshareMsgStep envOK opW [4] mW1 = reshareResultPart envOK opW [4] mW1 ∧
    reshareMsgStep envOK opW [4] mW2 =
      (match ValidateReshareMessage envOK.crypto mW2.Reshare opW pfBad with
       | .error e => .error e
       | .ok _ => reshareResultPart envOK opW [4] mW2) :=
  ⟨(reshare_validation_gated_on_old_set envOK opW [4] mW1).1 rfl,
   (reshare_validation_gated_on_old_set envOK opW [4] mW2).2 0 pfBad rfl rfl⟩

/-- C10: when the invoking operator is found at position p in a message's
(old-)operator sequence but the Proofs sequence is shorter than p+1, the
loop body's unguarded Proofs[p] access is out of bounds (the Go
slice-index panic), in Reshare and in Resign alike: index-alignment of the
proofs with the operator sequence is a necessary precondition for safe
handling. -/
theorem proofs_access_out_of_range (env : Env) (op : Operator) (sk : Bytes)
    (share : Option Bytes) :
    (∀ (m : ReshareMessage) (p : Nat),
       FindOperatorPosition m.Reshare.OldOperators op.ID = some p →
       m.Proofs.length ≤ p →
       reshareMsgStep env op sk m = .error .IndexOutOfRange)
    ∧ (∀ (m : ResignMessage) (p : Nat),
       FindOperatorPosition m.Operators op.ID = some p →
       m.Proofs.length ≤ p →
       resignMsgStep env op share sk m = .error .IndexOutOfRange) := by
  constructor
  · intro m p hfind hlen
    have hnone : m.Proofs[p]? = none := List.getElem?_eq_none hlen
    simp only [reshareMsgStep, hfind, hnone]
  · intro m p hfind hlen
    have hnone : m.Proofs[p]? = none := List.getElem?_eq_none hlen
    simp only [resignMsgStep, hfind, hnone]

def mShortReshare : ReshareMessage := ⟨rdOld, []⟩

def mShortResign : ResignMessage := ⟨rsdA, [opW], []⟩

/-- Witness for C10: concrete reshare and resign messages that list the
invoking operator but attach no proofs hit the out-of-bounds access. -/
theorem proofs_access_out_of_range_witness :
    reshareMsgStep envOK opW [4] mShortReshare = .error .IndexOutOfRange ∧
    resignMsgStep envOK opW none [4] mShortResign = .error .IndexOutOfRange :=
  ⟨(proofs_access_out_of_range envOK opW [4] none).1 mShortReshare 0 rfl (by decide),
   (proofs_access_out_of_range envOK opW [4] none).2 mShortResign 0 rfl (by decide)⟩

/-- C4: in the Init handler the BLS secret share and the validator public
key are declared but never assigned before use: for every capability
environment, Init can never return a Result, and whenever the message
validates and the deposit-data root derivation (which receives the
unassigned, empty validator public key) succeeds, the very first signing
step runs on the unassigned share and faults. -/
theorem init_share_never_assigned (env : Env) (op : Operator) (init : Init)
    (requestID : Bytes) (sk : Bytes) :
    (∀ res, Operator.Init env op init requestID sk ≠ .ok res)
    ∧ (env.validateInitMessage init = .ok () →
       ∀ root,
         env.depositDataRootForFork init.Fork [] init.WithdrawalCredentials
           init.Amount = .ok root →
         Operator.Init env op init requestID sk = .error .NilShare) := by
  constructor
  · intro res hres
    unfold Operator.Init at hres
    cases hv : env.validateInitMessage init with
    | error e =>
      simp only [hv] at hres
      exact Except.noConfusion hres
    | ok u =>
      cases u
      simp only [hv] at hres
      cases hd : env.depositDataRootForFork init.Fork [] init.WithdrawalCredentials
          init.Amount with
      | error e =>
        simp only [hd] at hres
        exact Except.noConfusion hres
      | ok root =>
        simp only [hd, signByteOpt] at hres
        exact Except.noConfusion hres
  · intro hv root hd
    simp only [Operator.Init, hv, hd, signByteOpt]

def initW : Init := ⟨[], [1], [], [], 0, 0, []⟩

/-- Witness for C4: a concrete Init message that passes validation makes
the handler fault at the first signing step with the unassigned share. -/
theorem init_share_never_assigned_witness :
    Operator.Init envOK opW initW [0] [4] = .error .NilShare :=
  (init_share_never_assigned envOK opW initW [0] [4]).2 rfl [0] rfl

def rsdB : ResignData := ⟨[], [2], [], [], 0, 0⟩

def pfGoodB : SignedProof := ⟨⟨[], [], [], [2]⟩, []⟩

def mGoodB : ResignMessage := ⟨rsdB, [opW], [pfGoodB]⟩

def srMixed : SignedResign := ⟨[mGoodA, mGoodB], [8]⟩

/-- C3 counterexample: Resign accepts a concrete two-message batch whose
messages carry different owners ([1] and [2]); the single owner-signature
authorization, performed against the first message's owner, does not force
the other messages of the batch to share that owner. -/
theorem resign_accepts_mixed_owner_batch :
    Operator.Resign envOK opW srMixed (some [6]) [4] = .ok [resW, resW] ∧
    mGoodB.Resign.Owner ≠ mGoodA.Resign.Owner := by
  constructor
  · rfl
  · decide

/-- C3 amended: a batch accepted by Reshare or Resign is non-empty and its
single owner-signature authorization succeeded over the bulk hash checked
against the first message's owner; equality of the remaining messages'
owners with the first is not enforced by the handlers. -/
theorem batch_accept_authorizes_first_owner :
    (∀ (env : Env) (op : Operator) (sk : Bytes) (sr : SignedReshare)
       (res : List Result),
       Operator.Reshare env op sr sk = .ok res →
       sr.Messages.length ≠ 0 ∧
       ∃ msgHash, env.getBulkReshareHash sr.Messages = .ok msgHash ∧
         env.verifySignedMessageByOwner (firstReshareOwner sr.Messages) msgHash
           sr.Signature = .ok ())
    ∧ (∀ (env : Env) (op : Operator) (share : Option Bytes) (sk : Bytes)
       (sr : SignedResign) (res : List Result),
       Operator.Resign env op sr share sk = .ok res →
       sr.Messages.length ≠ 0 ∧
       ∃ msgHash, env.getBulkResignHash sr.Messages = .ok msgHash ∧
         env.verifySignedMessageByOwner (firstResignOwner sr.Messages) msgHash
           sr.Signature = .ok ()) := by
  constructor
  · intro env op sk sr res h
    unfold Operator.Reshare at h
    split at h
    · exact Except.noConfusion h
    next hne =>
      split at h
      next e heq => exact Except.noConfusion h
      next msgHash heq =>
        split at h
        next e heq2 => exact Except.noConfusion h
        next u heq2 => exact ⟨hne, msgHash, heq, heq2⟩
  · intro env op share sk sr res h
    unfold Operator.Resign at h
    split at h
    · exact Except.noConfusion h
    next hne =>
      split at h
      next e heq => exact Except.noConfusion h
      next msgHash heq =>
        split at h
        next e heq2 => exact Except.noConfusion h
        next u heq2 => exact ⟨hne, msgHash, heq, heq2⟩

/-- Witness for the amended C3: the accepted mixed-owner batch indeed had a
successful single authorization against the first message's owner. -/
theorem batch_accept_authorizes_first_owner_witness :
    srMixed.Messages.length ≠ 0 ∧
    ∃ msgHash, envOK.getBulkResignHash srMixed.Messages = .ok msgHash ∧
      envOK.verifySignedMessageByOwner (firstResignOwner srMixed.Messages) msgHash
        srMixed.Signature = .ok () :=
  batch_accept_authorizes_first_owner.2 envOK opW (some [6]) [4] srMixed
    [resW, resW] rfl

lemma hexDigitVal_hexDigitChar (n : Nat) (h : n < 16) :
    hexDigitVal (hexDigitChar n) = some n := by
  interval_cases n <;> decide

lemma hexDecode_encodeByte_cons (b : Nat) (hb : b < 256) (rest : List Char) :
    hexDecode (hexEncodeByte b ++ rest) =
      (hexDecode rest).map (fun tail => b :: tail) := by
  have h1 : b / 16 < 16 := by omega
  have h2 : b % 16 < 16 := by omega
  show hexDecode (hexDigitChar (b / 16) :: hexDigitChar (b % 16) :: rest) = _
  rw [hexDecode, hexDigitVal_hexDigitChar _ h1, hexDigitVal_hexDigitChar _ h2]
  cases hr : hexDecode rest with
  | none => rfl
  | some tail =>
    have hdm : 16 * (b / 16) + b % 16 = b := Nat.div_add_mod b 16
    simp [hdm]

lemma hexDecode_hexEncode (bs : Bytes) (h : bytesValid bs) :
    hexDecode (hexEncode bs) = some bs := by
  induction bs with
  | nil => rfl
  | cons b rest ih =>
    have hb : b < 256 := h b (List.mem_cons_self b rest)
    have hr := ih (fun x hx => h x (List.mem_cons_of_mem _ hx))
    have hsplit : hexEncode (b :: rest) = hexEncodeByte b ++ hexEncode rest := by
      simp [hexEncode]
    rw [hsplit, hexDecode_encodeByte_cons b hb, hr]
    rfl

lemma proof_marshal_roundtrip (p : Proof) (hp : ProofValid p) :
    Proof.UnmarshalJSON (Proof.MarshalJSON p) = .ok p := by
  obtain ⟨h1, h2, h3, h4, h5⟩ := hp
  simp only [Proof.MarshalJSON, Proof.UnmarshalJSON,
    hexDecode_hexEncode _ h1, hexDecode_hexEncode _ h2,
    hexDecode_hexEncode _ h3, hexDecode_hexEncode _ h4]
  rw [if_neg (fun hh => hh h5)]

lemma signedProof_marshal_roundtrip (sp : SignedProof) (h : SignedProofValid sp) :
    SignedProof.UnmarshalJSON (SignedProof.MarshalJSON sp) = .ok sp := by
  obtain ⟨hp, hs⟩ := h
  simp only [SignedProof.MarshalJSON, SignedProof.UnmarshalJSON,
    proof_marshal_roundtrip _ hp, hexDecode_hexEncode _ hs]

lemma operator_marshal_roundtrip (o : Operator)
    (h : trimTrailingSlashes o.Addr = o.Addr) :
    Operator.UnmarshalJSON (Operator.MarshalJSON o) = o := by
  simp only [Operator.MarshalJSON, Operator.UnmarshalJSON, h]

/-- C5 amended: hex-encode then decode restores every wire-valid Proof and
SignedProof field for field, and every Operator whose address has no
trailing slash characters; an Operator address ending in slashes is NOT
restored, because decoding strips those characters (see the
counterexample). -/
theorem hex_json_round_trip :
    (∀ p : Proof, ProofValid p →
       Proof.UnmarshalJSON (Proof.MarshalJSON p) = .ok p)
    ∧ (∀ sp : SignedProof, SignedProofValid sp →
       SignedProof.UnmarshalJSON (SignedProof.MarshalJSON sp) = .ok sp)
    ∧ (∀ o : Operator, trimTrailingSlashes o.Addr = o.Addr →
       Operator.UnmarshalJSON (Operator.MarshalJSON o) = o) :=
  ⟨fun p hp => proof_marshal_roundtrip p hp,
   fun sp hsp => signedProof_marshal_roundtrip sp hsp,
   fun o ho => operator_marshal_roundtrip o ho⟩

def pRound : Proof := ⟨[0, 255], [1], [2], List.replicate 20 170⟩

def spRound : SignedProof := ⟨pRound, [3, 16]⟩

/-- Witness for the amended C5 at concrete values: a 20-byte-owner proof, a
signed proof, and a slash-free operator all round-trip. -/
theorem hex_json_round_trip_witness :
    Proof.UnmarshalJSON (Proof.MarshalJSON pRound) = .ok pRound ∧
    SignedProof.UnmarshalJSON (SignedProof.MarshalJSON spRound) = .ok spRound ∧
    Operator.UnmarshalJSON (Operator.MarshalJSON opW) = opW :=
  ⟨hex_json_round_trip.1 pRound (by decide),
   hex_json_round_trip.2.1 spRound (by decide),
   hex_json_round_trip.2.2 opW (by decide)⟩

def opSlash : Operator := ⟨[97, 47], 3, [107]⟩

/-- C5 counterexample: an Operator whose address ends in a slash character
(byte 47) does not round-trip: decoding strips the trailing slash, so the
decoded value differs from the original. -/
theorem operator_trailing_slash_breaks_round_trip :
    Operator.UnmarshalJSON (Operator.MarshalJSON opSlash) ≠ opSlash := by
  decide

/-- C6: Proof.UnmarshalJSON fails with the decode error on every input
whose hex-decoded owner has any length other than exactly 20 bytes, and on
every input in which any field's hex is malformed. -/
theorem proof_unmarshal_rejects (j : proofJSON) :
    (∀ ow, hexDecode j.owner = some ow → ow.length ≠ 20 →
       Proof.UnmarshalJSON j = .error .DecodeError)
    ∧ ((hexDecode j.validator = none ∨ hexDecode j.encrypted_share = none ∨
        hexDecode j.share_pub = none ∨ hexDecode j.owner = none) →
       Proof.UnmarshalJSON j = .error .DecodeError) := by
  constructor
  · intro ow how hlen
    unfold Proof.UnmarshalJSON
    cases hv : hexDecode j.validator with
    | none => rfl
    | some v =>
      cases he : hexDecode j.encrypted_share with
      | none => rfl
      | some es =>
        cases hs : hexDecode j.share_pub with
        | none => rfl
        | some sp =>
          simp only [how]
          rw [if_pos hlen]
  · intro hmal
    unfold Proof.UnmarshalJSON
    cases hv : hexDecode j.validator with
    | none => rfl
    | some v =>
      cases he : hexDecode j.encrypted_share with
      | none => rfl
      | some es =>
        cases hs : hexDecode j.share_pub with
        | none => rfl
        | some sp =>
          cases ho : hexDecode j.owner with
          | none => rfl
          | some ow =>
            exfalso
            rcases hmal with h | h | h | h
            · rw [h] at hv; exact Option.noConfusion hv
            · rw [h] at he; exact Option.noConfusion he
            · rw [h] at hs; exact Option.noConfusion hs
            · rw [h] at ho; exact Option.noConfusion ho

def jShortOwner : proofJSON := ⟨[], [], [], ['0', '0']⟩

def jBadHex : proofJSON := ⟨['z'], [], [], ['0', '0']⟩

/-- Witness for C6 at concrete inputs: a one-byte owner is rejected, and a
malformed validator field fails the whole decode. -/
theorem proof_unmarshal_rejects_witness :
    Proof.UnmarshalJSON jShortOwner = .error .DecodeError ∧
    Proof.UnmarshalJSON jBadHex = .error .DecodeError :=
  ⟨(proof_unmarshal_rejects jShortOwner).1 [0] rfl (by decide),
   (proof_unmarshal_rejects jBadHex).2 (Or.inl rfl)⟩
